import Mathlib

/-!
Verification of the tsuno application-server core against its
natural-language specification.

The repository ships example and benchmark applications
(`examples/lifespan_test.py`, `benchmarks/simple_wsgi_app.py`,
`benchmarks/simple_asgi_app.py`, ...); those are embedded here directly
from their Python source.  The server core itself (application registry,
router, protocol adapter, lifespan manager) is not part of the checked-in
sources, so its operations are modelled from the specification text; each
such definition carries a doc comment starting `Modelled from the spec:`.

Strings from the Python code (paths, header names, bodies) are modelled as
`List Char`; byte strings contain only ASCII in every program point we
treat, so characters are a faithful rendering.  Status codes are `Nat`.
-/

namespace Tsuno

/-- A character string as used throughout the model (paths, header
names/values, message bodies). -/
abbrev Str := List Char

/-! ## Data model: response envelope and ASGI messages -/

/-- The `ResponseEnvelope` of the spec data model: status code, ordered header
list, and a body; `moreBody = false` means the body is complete (no
more-body continuation). -/
structure ResponseEnvelope where
  status : Nat
  headers : List (Str × Str)
  body : Str
  moreBody : Bool
  deriving Repr, DecidableEq

/-- Outbound (application → server) ASGI message for an `"http"` scope:
either `http.response.start` or `http.response.body`. -/
inductive SendMsg where
  | start (status : Nat) (headers : List (Str × Str))
  | body (chunk : Str) (moreBody : Bool)
  deriving Repr, DecidableEq

/-- Outbound message for a `"lifespan"` scope. -/
inductive LifespanSend where
  | startupComplete
  | startupFailed (message : Str)
  | shutdownComplete
  | shutdownFailed (message : Str)
  deriving Repr, DecidableEq

/-- Inbound (server → application) message on a `"lifespan"` scope, as
tested by `message["type"]` in `lifespan_app`: `lifespan.startup`,
`lifespan.shutdown`, or any other type (skipped by the if/elif chain). -/
inductive LifespanMsg where
  | startup
  | shutdown
  | other
  deriving Repr, DecidableEq

/-- Inbound message on an `"http"` scope as tested by `lifespan_app`'s
receive loop: an `http.request` carrying a `more_body` flag, or any other
message type (ignored by the loop). -/
inductive HttpRecvMsg where
  | httpRequest (body : Str) (moreBody : Bool)
  | other
  deriving Repr, DecidableEq

/-! ## `examples/lifespan_test.py`, embedded from source -/

/-- The `Database` class of `lifespan_test.py`: a single `connected` flag. -/
structure Database where
  connected : Bool
  deriving Repr, DecidableEq

/-- Method `Database.connect`: sets `connected = True`.  (The `asyncio.sleep` is
pure delay; the method cannot fail.)  Returned in `Except` because
`lifespan_app` guards the call with `try/except`. -/
def dbConnect (_db : Database) : Except Str Database :=
  Except.ok ⟨true⟩

/-- Method `Database.disconnect`: sets `connected = False`. -/
def dbDisconnect (_db : Database) : Except Str Database :=
  Except.ok ⟨false⟩

/-- Result of running the lifespan branch of `lifespan_app` on a finite
stream of received messages: the messages sent, the received messages the
loop consumed (one per iteration, in order), the messages left unread, and
whether the coroutine returned (`true`) or is blocked inside `await
receive()` on an exhausted stream (`false`). -/
structure LifespanRun where
  sends : List LifespanSend
  consumed : List LifespanMsg
  rest : List LifespanMsg
  returned : Bool
  deriving Repr, DecidableEq

/-- The `while True` loop of `lifespan_app`'s `"lifespan"` branch, from
source.  `conn` and `disc` stand for `db.connect` / `db.disconnect`
(`Except.error` = the awaited call raised, taking the `except` branch).
On `lifespan.startup`: try connect; on success send
`lifespan.startup.complete` and loop, on exception send
`lifespan.startup.failed` and return.  On `lifespan.shutdown`: try
disconnect; send `.complete` or `.failed`; return either way.  Any other
message type falls through the if/elif and the loop just continues. -/
def lifespanLoop (conn disc : Database → Except Str Database) :
    Database → List LifespanMsg → LifespanRun
  | _, [] => ⟨[], [], [], false⟩
  | db, LifespanMsg.startup :: ms =>
      match conn db with
      | Except.ok db' =>
          let r := lifespanLoop conn disc db' ms
          ⟨LifespanSend.startupComplete :: r.sends,
            LifespanMsg.startup :: r.consumed, r.rest, r.returned⟩
      | Except.error e =>
          ⟨[LifespanSend.startupFailed e], [LifespanMsg.startup], ms, true⟩
  | db, LifespanMsg.shutdown :: ms =>
      match disc db with
      | Except.ok _ =>
          ⟨[LifespanSend.shutdownComplete], [LifespanMsg.shutdown], ms, true⟩
      | Except.error e =>
          ⟨[LifespanSend.shutdownFailed e], [LifespanMsg.shutdown], ms, true⟩
  | db, LifespanMsg.other :: ms =>
      let r := lifespanLoop conn disc db ms
      ⟨r.sends, LifespanMsg.other :: r.consumed, r.rest, r.returned⟩

/-- The `"lifespan"` branch of `lifespan_app` with the actual `db.connect`
and `db.disconnect` of `lifespan_test.py`. -/
def lifespanAppLifespan (db : Database) (msgs : List LifespanMsg) : LifespanRun :=
  lifespanLoop dbConnect dbDisconnect db msgs

/-- The `"http"` branch of `lifespan_app`, from source: loop receiving
until an `http.request` with `more_body` false arrives (other message
types are ignored), then send `http.response.start` with status 200 and
`content-type: text/plain`, then one terminal `http.response.body` whose
body depends on `db.connected`.  `none` = blocked in `await receive()` on
an exhausted stream. -/
def lifespanAppHttp (db : Database) : List HttpRecvMsg → Option (List SendMsg)
  | [] => none
  | HttpRecvMsg.httpRequest _ true :: ms => lifespanAppHttp db ms
  | HttpRecvMsg.httpRequest _ false :: _ =>
      some [SendMsg.start 200 [("content-type".toList, "text/plain".toList)],
        SendMsg.body
          (if db.connected then "Hello! Database is connected and ready.\n".toList
           else "Warning: Database is not connected!\n".toList) false]
  | HttpRecvMsg.other :: ms => lifespanAppHttp db ms

/-! ## Application registry and router

The registry/router code is not among the checked-in sources, so it is
modelled from §4.1 of the specification. -/

/-- Test that `xs` is a leading segment of `ys` (element-wise equality of `xs`
against the front of `ys`). -/
def isLead : Str → Str → Bool
  | [], _ => true
  | _ :: _, [] => false
  | c :: cs, d :: ds => c = d && isLead cs ds

/-- Modelled from the spec: a `MountedApplication` — a path, plus an abstract
application handle `α` (capability kind is irrelevant to routing). -/
structure Mount (α : Type) where
  pfx : Str
  app : α
  deriving Repr, DecidableEq

/-- Modelled from the spec: segment-aware match — the mount path `/api`
matches `/api` itself and `/api/x`, but not `/apix`; the root mount `/`
always matches as a fallback. -/
def mountMatches (pfx path : Str) : Bool :=
  if pfx = ['/'] then true
  else path = pfx || isLead (pfx ++ ['/']) path

/-- One pass over the registry keeping the longest matching mount seen so
far (`best`). -/
def resolveAux {α : Type} (path : Str) (best : Option (Mount α)) :
    List (Mount α) → Option (Mount α)
  | [] => best
  | m :: ms =>
      if mountMatches m.pfx path then
        match best with
        | none => resolveAux path (some m) ms
        | some b =>
            if b.pfx.length < m.pfx.length then resolveAux path (some m) ms
            else resolveAux path best ms
      else resolveAux path best ms

/-- Modelled from the spec: `resolve(path)` returns the mounted application
whose path is the longest registered one that matches `path`
(segment-aware); `none` means no match (a 404 is synthesized without
invoking any application). -/
def resolve {α : Type} (reg : List (Mount α)) (path : Str) : Option (Mount α) :=
  resolveAux path none reg

/-- Modelled from the spec: the rewritten path handed to the application
has the matched mount path stripped; an empty result becomes `/`. -/
def rewritePath (pfx path : Str) : Str :=
  let s := path.drop pfx.length
  if s = [] then ['/'] else s

/-- Modelled from the spec: route a request — resolve the mount, then hand
the selected application the rewritten path. -/
def routeRequest {α : Type} (reg : List (Mount α)) (path : Str) :
    Option (α × Str) :=
  match resolve reg path with
  | none => none
  | some m => some (m.app, rewritePath m.pfx path)

/-- Modelled from the spec: `register(prefix, application)` validates that
the mount path starts with `/`, has no trailing slash (except the root
`/`), and is not a duplicate; any failure invalidates server construction
(`Except.error`). -/
def register {α : Type} (reg : List (Mount α)) (pfx : Str) (a : α) :
    Except Str (List (Mount α)) :=
  if pfx.head? ≠ some '/' then
    Except.error "mount path must start with /".toList
  else if pfx ≠ ['/'] && pfx.getLast? = some '/' then
    Except.error "mount path must not end with /".toList
  else if reg.any (fun m => m.pfx = pfx) then
    Except.error "duplicate mount path".toList
  else
    Except.ok (reg ++ [⟨pfx, a⟩])

/-- Whether an `Except` value is `Except.ok`. -/
def exceptOk {ε α : Type} : Except ε α → Bool
  | Except.ok _ => true
  | Except.error _ => false

/-- The registry of the spec's longest-prefix routing example: mounts `/`,
`/api`, `/api/v2` (applications numbered 0, 1, 2). -/
def demoMounts : List (Mount Nat) :=
  [⟨"/".toList, 0⟩, ⟨"/api".toList, 1⟩, ⟨"/api/v2".toList, 2⟩]

/-! ## Protocol adapter

Not among the checked-in sources; modelled from §4.2 of the
specification. -/

/-- A call the synchronous application made to the response-starter:
a status line such as `"200 OK"` plus an ordered header list. -/
structure StartCall where
  status : Str
  headers : List (Str × Str)
  deriving Repr, DecidableEq

/-- Leading decimal digits of a status line (`"200 OK"` ↦ 200). -/
def parseStatusCode (s : Str) : Nat :=
  (s.takeWhile Char.isDigit).foldl (fun n c => 10 * n + (c.toNat - 48)) 0

/-- Lowercase a header name. -/
def lowerName (s : Str) : Str := s.map Char.toLower

/-- The protocol violations of §7: out-of-order messages, multiple
response-starts, missing terminal body marker. -/
inductive ProtoViolation where
  | noStart
  | multipleStart
  | bodyBeforeStart
  | pastTerminal
  | missingTerminal
  deriving Repr, DecidableEq

/-- Modelled from the spec: synchronous dispatch.  A synchronous
application is a function from an environment to the list of
response-starter calls it performed plus its returned iterable of body
chunks.  The application must signal response start exactly once; the
adapter then collects the chunks, in order, into a complete
`ResponseEnvelope` (header names normalized to lowercase).  Zero starter
calls, or more than one, is a protocol violation. -/
def wsgiDispatch {ε : Type} (app : ε → List StartCall × List Str) (env : ε) :
    Except ProtoViolation ResponseEnvelope :=
  match app env with
  | ([sc], chunks) =>
      Except.ok ⟨parseStatusCode sc.status,
        sc.headers.map (fun kv => (lowerName kv.1, kv.2)), chunks.flatten, false⟩
  | ([], _) => Except.error ProtoViolation.noStart
  | (_ :: _ :: _, _) => Except.error ProtoViolation.multipleStart

/-- Modelled from the spec: after `response.start`, accumulate
`response.body` chunks in order; a chunk with `more_body = false`
terminates the exchange, and any message past the terminal one — or a
second `response.start` — is a protocol violation; so is ending without a
terminal chunk. -/
def collectBody (status : Nat) (hdrs : List (Str × Str)) (acc : Str) :
    List SendMsg → Except ProtoViolation ResponseEnvelope
  | [] => Except.error ProtoViolation.missingTerminal
  | SendMsg.body c true :: ms => collectBody status hdrs (acc ++ c) ms
  | SendMsg.body c false :: ms =>
      if ms = [] then Except.ok ⟨status, hdrs, acc ++ c, false⟩
      else Except.error ProtoViolation.pastTerminal
  | SendMsg.start _ _ :: _ => Except.error ProtoViolation.multipleStart

/-- Modelled from the spec: asynchronous dispatch — the per-request state
machine over the application's `send` trace: exactly one `response.start`,
then zero or more `response.body` messages terminating on
`more_body = false`.  A body message before any start message is a
protocol violation. -/
def asgiCollect : List SendMsg → Except ProtoViolation ResponseEnvelope
  | [] => Except.error ProtoViolation.noStart
  | SendMsg.start s h :: ms => collectBody s h [] ms
  | SendMsg.body _ _ :: _ => Except.error ProtoViolation.bodyBeforeStart

/-- Modelled from the spec: the 500-class response surfaced to the client
when a request fails with a protocol violation. -/
def internalServerError : ResponseEnvelope :=
  ⟨500, [("content-type".toList, "text/plain".toList)],
    "Internal Server Error".toList, false⟩

/-- Modelled from the spec: a protocol violation is fatal to the single
request only — the adapter converts it into the 500-class response instead
of propagating. -/
def handleAsgiRequest (sends : List SendMsg) : ResponseEnvelope :=
  match asgiCollect sends with
  | Except.ok r => r
  | Except.error _ => internalServerError

/-- Modelled from the spec: a worker handles each in-flight request
independently; no request-handling state is shared between requests. -/
def workerHandleBatch (reqs : List (List SendMsg)) : List ResponseEnvelope :=
  reqs.map handleAsgiRequest

/-! ## Benchmark applications, embedded from source -/

/-- Function `app` of `benchmarks/simple_wsgi_app.py`, from source: calls
`start_response("200 OK", [("Content-type", "text/plain")])` once, then
returns `[b"Hello, World!"]`.  The environment is ignored. -/
def simpleWsgiApp {ε : Type} (_environ : ε) : List StartCall × List Str :=
  ([⟨"200 OK".toList, [("Content-type".toList, "text/plain".toList)]⟩],
    ["Hello, World!".toList])

/-- Function `app` of `benchmarks/simple_asgi_app.py`, from source: if the scope type
is not `"http"` it returns immediately (no sends at all); otherwise it
sends `http.response.start(200, content-type: text/plain)` and one
terminal body `b"Hello, World!"`. -/
def simpleAsgiApp (scopeType : String) : List SendMsg :=
  if scopeType = "http" then
    [SendMsg.start 200 [("content-type".toList, "text/plain".toList)],
      SendMsg.body "Hello, World!".toList false]
  else []

/-! ## Worker lifecycle

Modelled from §4.3/§3 of the specification: a worker runs the lifespan
startup exchange with the mounted application before dispatching any
`"http"` request; startup failure means the worker never serves. -/

/-- Observable worker events: the lifespan startup exchange and request
dispatches. -/
inductive WorkerEvent where
  | startupSent
  | startupCompleted
  | startupFailedEv
  | dispatch (n : Nat)
  deriving Repr, DecidableEq

/-- The database state after `lifespan_app`'s startup handling succeeds
(`none` if `db.connect` raised, i.e. startup failed). -/
def workerStartupDb : Option Database :=
  match dbConnect ⟨false⟩ with
  | Except.ok db => some db
  | Except.error _ => none

/-- Modelled from the spec: a worker's event trace with `lifespan_app`
mounted.  The lifespan manager sends `lifespan.startup` and awaits the
acknowledgment; only when the application acknowledged with
`lifespan.startup.complete` does the worker reach `Started` and dispatch
its `n` requests; a failed startup aborts the worker before any
dispatch. -/
def workerTrace (n : Nat) : List WorkerEvent :=
  let run := lifespanAppLifespan ⟨false⟩ [LifespanMsg.startup]
  if run.sends = [LifespanSend.startupComplete] then
    WorkerEvent.startupSent :: WorkerEvent.startupCompleted ::
      (List.range n).map WorkerEvent.dispatch
  else [WorkerEvent.startupSent, WorkerEvent.startupFailedEv]

/-- Modelled from the spec: the response `lifespan_app` produces for an
`"http"` request dispatched after the startup exchange (requests are only
dispatched when startup succeeded). -/
def workerResponse (msgs : List HttpRecvMsg) : Option (List SendMsg) :=
  match workerStartupDb with
  | some db => lifespanAppHttp db msgs
  | none => none

/-! ## Helper predicates and lemmas -/

/-- Whether a lifespan send answers a `lifespan.startup` event. -/
def isStartupAck : LifespanSend → Bool
  | LifespanSend.startupComplete => true
  | LifespanSend.startupFailed _ => true
  | _ => false

/-- Whether a lifespan send answers a `lifespan.shutdown` event. -/
def isShutdownAck : LifespanSend → Bool
  | LifespanSend.shutdownComplete => true
  | LifespanSend.shutdownFailed _ => true
  | _ => false

theorem lifespanLoop_split (conn disc : Database → Except Str Database) :
    ∀ (msgs : List LifespanMsg) (db : Database),
      (lifespanLoop conn disc db msgs).consumed ++ (lifespanLoop conn disc db msgs).rest
        = msgs := by
  intro msgs
  induction msgs with
  | nil => intro db; rfl
  | cons m ms ih =>
      intro db
      cases m with
      | startup =>
          cases hc : conn db with
          | ok db' => simp [lifespanLoop, hc, ih]
          | error e => simp [lifespanLoop, hc]
      | shutdown =>
          cases hd : disc db with
          | ok d => simp [lifespanLoop, hd]
          | error e => simp [lifespanLoop, hd]
      | other => simp [lifespanLoop, ih]

theorem lifespanLoop_acks (conn disc : Database → Except Str Database) :
    ∀ (msgs : List LifespanMsg) (db : Database),
      (lifespanLoop conn disc db msgs).sends.countP isStartupAck
        = (lifespanLoop conn disc db msgs).consumed.countP
            (fun m => decide (m = LifespanMsg.startup)) ∧
      (lifespanLoop conn disc db msgs).sends.countP isShutdownAck
        = (lifespanLoop conn disc db msgs).consumed.countP
            (fun m => decide (m = LifespanMsg.shutdown)) ∧
      (lifespanLoop conn disc db msgs).sends.countP isStartupAck
          + (lifespanLoop conn disc db msgs).sends.countP isShutdownAck
        = (lifespanLoop conn disc db msgs).sends.length := by
  intro msgs
  induction msgs with
  | nil => intro db; simp [lifespanLoop]
  | cons m ms ih =>
      intro db
      cases m with
      | startup =>
          cases hc : conn db with
          | ok db' =>
              obtain ⟨h1, h2, h3⟩ := ih db'
              simp [lifespanLoop, hc, List.countP_cons, isStartupAck, isShutdownAck,
                h1, h2, h3]
              omega
          | error e =>
              simp [lifespanLoop, hc, List.countP_cons, isStartupAck, isShutdownAck]
      | shutdown =>
          cases hd : disc db with
          | ok d =>
              simp [lifespanLoop, hd, List.countP_cons, isStartupAck, isShutdownAck]
          | error e =>
              simp [lifespanLoop, hd, List.countP_cons, isStartupAck, isShutdownAck]
      | other =>
          obtain ⟨h1, h2, h3⟩ := ih db
          simp [lifespanLoop, List.countP_cons, h1, h2, h3]
          omega

theorem lifespanLoop_shutdown_returns (conn disc : Database → Except Str Database) :
    ∀ (msgs : List LifespanMsg) (db : Database),
      LifespanMsg.shutdown ∈ msgs → (lifespanLoop conn disc db msgs).returned = true := by
  intro msgs
  induction msgs with
  | nil => intro db h; cases h
  | cons m ms ih =>
      intro db h
      cases m with
      | startup =>
          have hms : LifespanMsg.shutdown ∈ ms := by simpa using h
          cases hc : conn db with
          | ok db' => simp [lifespanLoop, hc, ih db' hms]
          | error e => simp [lifespanLoop, hc]
      | shutdown =>
          cases hd : disc db with
          | ok d => simp [lifespanLoop, hd]
          | error e => simp [lifespanLoop, hd]
      | other =>
          have hms : LifespanMsg.shutdown ∈ ms := by simpa using h
          simp [lifespanLoop, ih db hms]

theorem lifespanAppHttp_eq_some (db : Database) :
    ∀ (msgs : List HttpRecvMsg) (r : List SendMsg),
      lifespanAppHttp db msgs = some r →
      r = [SendMsg.start 200 [("content-type".toList, "text/plain".toList)],
        SendMsg.body
          (if db.connected then "Hello! Database is connected and ready.\n".toList
           else "Warning: Database is not connected!\n".toList) false] := by
  intro msgs
  induction msgs with
  | nil => intro r h; cases h
  | cons m ms ih =>
      intro r h
      cases m with
      | httpRequest b mb =>
          cases mb with
          | true => exact ih r (by simpa [lifespanAppHttp] using h)
          | false =>
              simp [lifespanAppHttp] at h
              exact h.symm
      | other => exact ih r (by simpa [lifespanAppHttp] using h)

theorem resolveAux_mem {α : Type} (path : Str) :
    ∀ (ms : List (Mount α)) (best : Option (Mount α)) (m : Mount α),
      resolveAux path best ms = some m →
      best = some m ∨ (m ∈ ms ∧ mountMatches m.pfx path = true) := by
  intro ms
  induction ms with
  | nil => intro best m h; exact Or.inl h
  | cons x xs ih =>
      intro best m h
      cases hm : mountMatches x.pfx path with
      | false =>
          simp only [resolveAux, hm, Bool.false_eq_true, if_false] at h
          rcases ih best m h with hb | ⟨hmem, hmt⟩
          · exact Or.inl hb
          · exact Or.inr ⟨List.mem_cons_of_mem _ hmem, hmt⟩
      | true =>
          simp only [resolveAux, hm, if_true] at h
          cases best with
          | none =>
              rcases ih (some x) m h with hb | ⟨hmem, hmt⟩
              · obtain rfl : x = m := Option.some_injective _ hb
                exact Or.inr ⟨List.mem_cons_self _ _, hm⟩
              · exact Or.inr ⟨List.mem_cons_of_mem _ hmem, hmt⟩
          | some b =>
              by_cases hlt : b.pfx.length < x.pfx.length
              · simp only [hlt, if_true] at h
                rcases ih (some x) m h with hb | ⟨hmem, hmt⟩
                · obtain rfl : x = m := Option.some_injective _ hb
                  exact Or.inr ⟨List.mem_cons_self _ _, hm⟩
                · exact Or.inr ⟨List.mem_cons_of_mem _ hmem, hmt⟩
              · simp only [hlt, if_false] at h
                rcases ih (some b) m h with hb | ⟨hmem, hmt⟩
                · exact Or.inl hb
                · exact Or.inr ⟨List.mem_cons_of_mem _ hmem, hmt⟩

theorem resolveAux_max {α : Type} (path : Str) :
    ∀ (ms : List (Mount α)) (best : Option (Mount α)) (m : Mount α),
      resolveAux path best ms = some m →
      (∀ b, best = some b → b.pfx.length ≤ m.pfx.length) ∧
      (∀ m' ∈ ms, mountMatches m'.pfx path = true → m'.pfx.length ≤ m.pfx.length) := by
  intro ms
  induction ms with
  | nil =>
      intro best m h
      refine ⟨fun b hb => ?_, fun m' hm' => absurd hm' (List.not_mem_nil m')⟩
      obtain rfl : b = m := Option.some_injective _ (hb ▸ h)
      exact Nat.le_refl _
  | cons x xs ih =>
      intro best m h
      cases hm : mountMatches x.pfx path with
      | false =>
          simp only [resolveAux, hm, Bool.false_eq_true, if_false] at h
          obtain ⟨hb, hxs⟩ := ih best m h
          refine ⟨hb, fun m' hm' hmt => ?_⟩
          rcases List.mem_cons.mp hm' with rfl | hm'
          · rw [hmt] at hm; cases hm
          · exact hxs m' hm' hmt
      | true =>
          simp only [resolveAux, hm, if_true] at h
          cases best with
          | none =>
              obtain ⟨hb, hxs⟩ := ih (some x) m h
              have hx : x.pfx.length ≤ m.pfx.length := hb x rfl
              refine ⟨fun b hb' => Option.noConfusion hb', fun m' hm' hmt => ?_⟩
              rcases List.mem_cons.mp hm' with rfl | hm'
              · exact hx
              · exact hxs m' hm' hmt
          | some b =>
              by_cases hlt : b.pfx.length < x.pfx.length
              · simp only [hlt, if_true] at h
                obtain ⟨hb, hxs⟩ := ih (some x) m h
                have hx : x.pfx.length ≤ m.pfx.length := hb x rfl
                refine ⟨fun b' hb' => ?_, fun m' hm' hmt => ?_⟩
                · obtain rfl : b' = b := Option.some_injective _ hb'.symm
                  exact Nat.le_trans (Nat.le_of_lt hlt) hx
                · rcases List.mem_cons.mp hm' with rfl | hm'
                  · exact hx
                  · exact hxs m' hm' hmt
              · simp only [hlt, if_false] at h
                obtain ⟨hb, hxs⟩ := ih (some b) m h
                have hble : b.pfx.length ≤ m.pfx.length := hb b rfl
                refine ⟨fun b' hb' => ?_, fun m' hm' hmt => ?_⟩
                · obtain rfl : b' = b := Option.some_injective _ hb'.symm
                  exact hble
                · rcases List.mem_cons.mp hm' with rfl | hm'
                  · exact Nat.le_trans (Nat.le_of_not_lt hlt) hble
                  · exact hxs m' hm' hmt

theorem isLead_refl : ∀ s : Str, isLead s s = true := by
  intro s
  induction s with
  | nil => rfl
  | cons c cs ih => simp [isLead, ih]

theorem isLead_append_left : ∀ (a b s : Str), isLead (a ++ b) s = true → isLead a s = true := by
  intro a
  induction a with
  | nil => intro b s _; rfl
  | cons c cs ih =>
      intro b s h
      cases s with
      | nil => cases h
      | cons d ds =>
          simp only [List.cons_append, isLead, Bool.and_eq_true, decide_eq_true_eq] at h ⊢
          exact ⟨h.1, ih b ds h.2⟩

theorem isLead_append_drop : ∀ (p s : Str), isLead p s = true → p ++ s.drop p.length = s := by
  intro p
  induction p with
  | nil => intro s _; simp
  | cons c cs ih =>
      intro s h
      cases s with
      | nil => cases h
      | cons d ds =>
          simp only [isLead, Bool.and_eq_true, decide_eq_true_eq] at h
          obtain ⟨rfl, h2⟩ := h
          simp only [List.length_cons, List.drop_succ_cons, List.cons_append,
            List.cons.injEq, true_and]
          exact ih ds h2

theorem mountMatches_isLead (pfx path : Str) (hne : pfx ≠ ['/'])
    (h : mountMatches pfx path = true) : isLead pfx path = true := by
  rw [mountMatches, if_neg hne] at h
  rcases Bool.or_eq_true_iff.mp h with heq | hlead
  · obtain rfl : path = pfx := by simpa using heq
    exact isLead_refl _
  · exact isLead_append_left pfx ['/'] path hlead

/-! ## Claim theorems -/

/-- C2: `resolve(path)` returns the mounted application whose mount path is
the longest registered one that is a segment-aware leading segment of the
path, with the root `/` always matching as a fallback; with mounts `/`,
`/api`, `/api/v2`, the path `/api/v2/x` resolves to `/api/v2`,
`/api/other` to `/api`, and `/zzz` to `/`. -/
theorem resolve_longest_match (α : Type) (reg : List (Mount α)) (path : Str)
    (m : Mount α) (h : resolve reg path = some m) :
    (m ∈ reg ∧ mountMatches m.pfx path = true ∧
      ∀ m' ∈ reg, mountMatches m'.pfx path = true → m'.pfx.length ≤ m.pfx.length) ∧
    (resolve demoMounts "/api/v2/x".toList).map Mount.app = some 2 ∧
    (resolve demoMounts "/api/other".toList).map Mount.app = some 1 ∧
    (resolve demoMounts "/zzz".toList).map Mount.app = some 0 := by
  refine ⟨⟨?_, ?_, (resolveAux_max path reg none m h).2⟩, by decide, by decide, by decide⟩
  · rcases resolveAux_mem path reg none m h with hb | ⟨hmem, _⟩
    · cases hb
    · exact hmem
  · rcases resolveAux_mem path reg none m h with hb | ⟨_, hmt⟩
    · cases hb
    · exact hmt

theorem resolve_longest_match_witness :
    ((⟨"/api/v2".toList, 2⟩ : Mount Nat) ∈ demoMounts ∧
      mountMatches "/api/v2".toList "/api/v2/x".toList = true ∧
      ∀ m' ∈ demoMounts, mountMatches m'.pfx "/api/v2/x".toList = true →
        m'.pfx.length ≤ ("/api/v2".toList : Str).length) ∧
    (resolve demoMounts "/api/v2/x".toList).map Mount.app = some 2 ∧
    (resolve demoMounts "/api/other".toList).map Mount.app = some 1 ∧
    (resolve demoMounts "/zzz".toList).map Mount.app = some 0 :=
  resolve_longest_match Nat demoMounts "/api/v2/x".toList ⟨"/api/v2".toList, 2⟩
    (by decide)

/-- C6: the path handed to the selected application is the request path
with the matched mount path stripped, and an empty remainder is replaced
by `/`; for a non-root mount the stripped remainder really is the suffix
of the request path after its mount path. -/
theorem route_strips_mount (α : Type) (reg : List (Mount α)) (path : Str)
    (m : Mount α) (h : resolve reg path = some m) :
    routeRequest reg path = some (m.app, rewritePath m.pfx path) ∧
    (path.drop m.pfx.length = [] → rewritePath m.pfx path = ['/']) ∧
    (path.drop m.pfx.length ≠ [] → rewritePath m.pfx path = path.drop m.pfx.length) ∧
    (m.pfx ≠ ['/'] → m.pfx ++ path.drop m.pfx.length = path) ∧
    routeRequest demoMounts "/api/x".toList = some (1, "/x".toList) ∧
    routeRequest demoMounts "/api".toList = some (1, "/".toList) := by
  refine ⟨by simp [routeRequest, h], fun he => by simp [rewritePath, he],
    fun he => by simp [rewritePath, he], fun hne => ?_, by decide, by decide⟩
  have hmt : mountMatches m.pfx path = true := by
    rcases resolveAux_mem path reg none m h with hb | ⟨_, hmt⟩
    · cases hb
    · exact hmt
  exact isLead_append_drop _ _ (mountMatches_isLead m.pfx path hne hmt)

theorem route_strips_mount_witness :
    (routeRequest demoMounts "/api/x".toList
      = some ((⟨"/api".toList, 1⟩ : Mount Nat).app,
          rewritePath "/api".toList "/api/x".toList)) ∧
    ("/api/x".toList.drop ("/api".toList : Str).length = [] →
      rewritePath "/api".toList "/api/x".toList = ['/']) ∧
    ("/api/x".toList.drop ("/api".toList : Str).length ≠ [] →
      rewritePath "/api".toList "/api/x".toList
        = "/api/x".toList.drop ("/api".toList : Str).length) ∧
    (("/api".toList : Str) ≠ ['/'] →
      "/api".toList ++ "/api/x".toList.drop ("/api".toList : Str).length
        = "/api/x".toList) ∧
    routeRequest demoMounts "/api/x".toList = some (1, "/x".toList) ∧
    routeRequest demoMounts "/api".toList = some (1, "/".toList) :=
  route_strips_mount Nat demoMounts "/api/x".toList ⟨"/api".toList, 1⟩ (by decide)

/-- C7: `register(prefix, application)` fails whenever the mount path does
not start with `/`, has a trailing slash other than the root `/`, or is
already registered; in particular registering the same mount path twice is
rejected. -/
theorem register_rejects_invalid (α : Type) (reg : List (Mount α)) (pfx : Str)
    (a b : α) :
    (pfx.head? ≠ some '/' → exceptOk (register reg pfx a) = false) ∧
    (pfx ≠ ['/'] → pfx.getLast? = some '/' → exceptOk (register reg pfx a) = false) ∧
    ((∃ m ∈ reg, m.pfx = pfx) → exceptOk (register reg pfx a) = false) ∧
    (∀ reg', register reg pfx a = Except.ok reg' →
      exceptOk (register reg' pfx b) = false) := by
  refine ⟨fun hh => ?_, fun h1 h2 => ?_, fun hdup => ?_, fun reg' hok => ?_⟩
  · simp [register, hh, exceptOk]
  · by_cases hh : pfx.head? = some '/'
    · simp [register, hh, h1, h2, exceptOk]
    · simp [register, hh, exceptOk]
  · obtain ⟨mm, hmem, hpe⟩ := hdup
    unfold register exceptOk
    split_ifs with g1 g2 g3
    · rfl
    · rfl
    · rfl
    · exact absurd (List.any_eq_true.mpr ⟨mm, hmem, by simp [hpe]⟩) g3
  · unfold register at hok
    split_ifs at hok with g1 g2 g3
    obtain rfl : reg ++ [⟨pfx, a⟩] = reg' := by
      injection hok
    have hany : (reg ++ [(⟨pfx, a⟩ : Mount α)]).any
        (fun m => decide (m.pfx = pfx)) = true :=
      List.any_eq_true.mpr ⟨⟨pfx, a⟩, by simp, by simp⟩
    unfold register exceptOk
    split_ifs
    rfl

theorem register_rejects_invalid_witness :
    exceptOk (register ([] : List (Mount Nat)) "api".toList 0) = false ∧
    exceptOk (register ([] : List (Mount Nat)) "/api/".toList 0) = false ∧
    exceptOk (register [(⟨"/api".toList, 0⟩ : Mount Nat)] "/api".toList 0) = false ∧
    exceptOk (register [(⟨"/api".toList, 0⟩ : Mount Nat)] "/api".toList 1) = false :=
  ⟨(register_rejects_invalid Nat [] "api".toList 0 0).1 (by decide),
    (register_rejects_invalid Nat [] "/api/".toList 0 0).2.1 (by decide) (by decide),
    (register_rejects_invalid Nat [⟨"/api".toList, 0⟩] "/api".toList 0 0).2.2.1
      ⟨⟨"/api".toList, 0⟩, by decide, rfl⟩,
    (register_rejects_invalid Nat [] "/api".toList 0 1).2.2.2
      [⟨"/api".toList, 0⟩] rfl⟩

/-- C3: dispatching `simple_wsgi_app.app` through the protocol adapter
produces, for every request environment, a complete `ResponseEnvelope`
with status 200, headers `[("content-type", "text/plain")]` and body
`b"Hello, World!"` with no more-body continuation, and the application
calls the response-starter exactly once. -/
theorem wsgi_roundtrip (ε : Type) (env : ε) :
    wsgiDispatch simpleWsgiApp env
      = Except.ok ⟨200, [("content-type".toList, "text/plain".toList)],
          "Hello, World!".toList, false⟩ ∧
    (simpleWsgiApp env).1.length = 1 :=
  ⟨rfl, rfl⟩

/-- C4: an asynchronous application sending `response.start` with status
200 followed by two `response.body` chunks, the first with
`more_body = True` and the second with `more_body = False`, yields a
response whose body is the concatenation of both chunks in order. -/
theorem asgi_streaming_concat (hs : List (Str × Str)) (c1 c2 : Str) :
    asgiCollect [SendMsg.start 200 hs, SendMsg.body c1 true, SendMsg.body c2 false]
      = Except.ok ⟨200, hs, c1 ++ c2, false⟩ := by
  simp [asgiCollect, collectBody]

/-- C8: a `response.body` message sent before any `response.start` is a
protocol violation; it makes that single request produce the 500-class
internal-error response, while a worker handling a batch of requests still
produces one response per request, each equal to what the request would
produce alone (isolation). -/
theorem violation_isolated (c : Str) (b : Bool) (ms : List SendMsg)
    (reqs : List (List SendMsg)) (i : Nat) :
    asgiCollect (SendMsg.body c b :: ms) = Except.error ProtoViolation.bodyBeforeStart ∧
    handleAsgiRequest (SendMsg.body c b :: ms) = internalServerError ∧
    500 ≤ internalServerError.status ∧ internalServerError.status < 600 ∧
    (workerHandleBatch reqs).length = reqs.length ∧
    (workerHandleBatch reqs)[i]? = reqs[i]?.map handleAsgiRequest := by
  refine ⟨rfl, rfl, by decide, by decide, by simp [workerHandleBatch], ?_⟩
  simp [workerHandleBatch]

/-- C9: `simple_asgi_app.app` returns immediately, without any send, for
every scope whose type is not `"http"` — in particular for a `"lifespan"`
scope, so it never acknowledges a `lifespan.startup` event. -/
theorem simple_asgi_nonhttp_silent (t : String) (h : t ≠ "http") :
    simpleAsgiApp t = [] ∧ simpleAsgiApp "lifespan" = [] :=
  ⟨by simp [simpleAsgiApp, h], by simp [simpleAsgiApp]⟩

theorem simple_asgi_nonhttp_silent_witness :
    ("lifespan" : String) ≠ "http" ∧
    (simpleAsgiApp "lifespan" = [] ∧ simpleAsgiApp "lifespan" = []) :=
  ⟨by decide, simple_asgi_nonhttp_silent "lifespan" (by decide)⟩

/-- C5: in its `"lifespan"` branch, `lifespan_app` answers every received
`lifespan.startup` message with exactly one send of `.complete` or
`.failed`, and every received `lifespan.shutdown` message with exactly one
send of `.complete` or `.failed`; moreover every message it sends is one
of these acknowledgments. -/
theorem lifespan_app_acks (db : Database) (msgs : List LifespanMsg) :
    (lifespanAppLifespan db msgs).sends.countP isStartupAck
      = (lifespanAppLifespan db msgs).consumed.countP
          (fun m => decide (m = LifespanMsg.startup)) ∧
    (lifespanAppLifespan db msgs).sends.countP isShutdownAck
      = (lifespanAppLifespan db msgs).consumed.countP
          (fun m => decide (m = LifespanMsg.shutdown)) ∧
    (lifespanAppLifespan db msgs).sends.countP isStartupAck
        + (lifespanAppLifespan db msgs).sends.countP isShutdownAck
      = (lifespanAppLifespan db msgs).sends.length :=
  lifespanLoop_acks dbConnect dbDisconnect msgs db

/-- C10: the lifespan loop of `lifespan_app` consumes exactly one received
message per iteration (the consumed messages followed by the unread rest
reconstitute the delivered sequence); it returns whenever the sequence
contains a `lifespan.shutdown` message, and when startup handling raises
it sends `lifespan.startup.failed` and returns at once, leaving every
later message (including any shutdown) unprocessed. -/
theorem lifespan_loop_terminates (conn disc : Database → Except Str Database)
    (db : Database) (msgs : List LifespanMsg) :
    (lifespanLoop conn disc db msgs).consumed
        ++ (lifespanLoop conn disc db msgs).rest = msgs ∧
    (LifespanMsg.shutdown ∈ msgs → (lifespanLoop conn disc db msgs).returned = true) ∧
    (∀ e ms, conn db = Except.error e →
      lifespanLoop conn disc db (LifespanMsg.startup :: ms)
        = ⟨[LifespanSend.startupFailed e], [LifespanMsg.startup], ms, true⟩) :=
  ⟨lifespanLoop_split conn disc msgs db,
    fun h => lifespanLoop_shutdown_returns conn disc msgs db h,
    fun e ms he => by simp [lifespanLoop, he]⟩

theorem lifespan_loop_terminates_witness :
    ((lifespanLoop (fun _ => Except.error "boom".toList) dbDisconnect ⟨false⟩
        [LifespanMsg.startup, LifespanMsg.shutdown]).consumed
      ++ (lifespanLoop (fun _ => Except.error "boom".toList) dbDisconnect ⟨false⟩
        [LifespanMsg.startup, LifespanMsg.shutdown]).rest
      = [LifespanMsg.startup, LifespanMsg.shutdown]) ∧
    ((lifespanLoop (fun _ => Except.error "boom".toList) dbDisconnect ⟨false⟩
        [LifespanMsg.startup, LifespanMsg.shutdown]).returned = true) ∧
    (lifespanLoop (fun _ => Except.error "boom".toList) dbDisconnect ⟨false⟩
        (LifespanMsg.startup :: [LifespanMsg.shutdown])
      = ⟨[LifespanSend.startupFailed "boom".toList], [LifespanMsg.startup],
          [LifespanMsg.shutdown], true⟩) :=
  ⟨(lifespan_loop_terminates (fun _ => Except.error "boom".toList) dbDisconnect
      ⟨false⟩ [LifespanMsg.startup, LifespanMsg.shutdown]).1,
    (lifespan_loop_terminates (fun _ => Except.error "boom".toList) dbDisconnect
      ⟨false⟩ [LifespanMsg.startup, LifespanMsg.shutdown]).2.1 (by decide),
    (lifespan_loop_terminates (fun _ => Except.error "boom".toList) dbDisconnect
      ⟨false⟩ []).2.2 "boom".toList [LifespanMsg.shutdown] rfl⟩

/-- C1: in a worker's event trace every dispatch of an `"http"` request is
preceded by the successful completion of the `lifespan.startup` exchange,
and every request `lifespan_app` then handles observes a connected
database and responds with status 200 and body
`b"Hello! Database is connected and ready.\n"`. -/
theorem lifespan_gates_requests :
    (∀ (n i k : Nat), (workerTrace n)[i]? = some (WorkerEvent.dispatch k) →
      ∃ j, j < i ∧ (workerTrace n)[j]? = some WorkerEvent.startupCompleted) ∧
    (∀ msgs r, workerResponse msgs = some r →
      r = [SendMsg.start 200 [("content-type".toList, "text/plain".toList)],
        SendMsg.body "Hello! Database is connected and ready.\n".toList false]) := by
  constructor
  · intro n i k h
    have ht : workerTrace n
        = WorkerEvent.startupSent :: WorkerEvent.startupCompleted
            :: (List.range n).map WorkerEvent.dispatch := rfl
    rw [ht] at h
    rcases i with _ | _ | j
    · simp at h
    · simp at h
    · exact ⟨1, by omega, by simp [ht]⟩
  · intro msgs r h
    have hmr : workerResponse msgs = lifespanAppHttp ⟨true⟩ msgs := rfl
    rw [hmr] at h
    simpa using lifespanAppHttp_eq_some ⟨true⟩ msgs r h

theorem lifespan_gates_requests_witness :
    ((workerTrace 1)[2]? = some (WorkerEvent.dispatch 0) ∧
      ∃ j, j < 2 ∧ (workerTrace 1)[j]? = some WorkerEvent.startupCompleted) ∧
    workerResponse [HttpRecvMsg.httpRequest [] false]
      = some [SendMsg.start 200 [("content-type".toList, "text/plain".toList)],
          SendMsg.body "Hello! Database is connected and ready.\n".toList false] :=
  ⟨⟨by decide, lifespan_gates_requests.1 1 2 0 (by decide)⟩, by decide⟩

end Tsuno
